import Mathlib

set_option autoImplicit false

/-!
Shallow embedding of the python3 function template (`templates/python3/index.py`):
the response formatter (`format_status_code`, `format_body`, `format_headers`,
`format_response`) and the per-request `Context` builder.  Python runtime
errors (TypeError on `in`/subscript for non-containers, KeyError on a missing
dict key) are modelled with `Except String`; the formatter functions thread
them exactly where the interpreter would raise.
-/

/-- Python values as they flow through the template: the handler result, its
entries, and the pieces the formatter builds.  Dict keys are modelled as
strings (the adapter only ever consults string keys) and a dict is its entry
list in insertion order, with unique keys when it denotes a real Python dict. -/
inductive PyVal : Type
  | none
  | bool (b : Bool)
  | int (n : Int)
  | str (s : String)
  | list (xs : List PyVal)
  | tuple (xs : List PyVal)
  | dict (entries : List (String × PyVal))

/-- First-match association lookup, the semantics of `d[key]` on the entry
list representing a Python dict. -/
def dictLookup (es : List (String × PyVal)) (key : String) : Option PyVal :=
  match es with
  | [] => Option.none
  | (k, v) :: rest => if k = key then some v else dictLookup rest key

/-- Key membership on the entry list, the semantics of `key in d`. -/
def dictContains (es : List (String × PyVal)) (key : String) : Bool :=
  match es with
  | [] => false
  | (k, _) :: rest => if k = key then true else dictContains rest key

/-- Whether the character list `pre` is a pointwise head of `l`. -/
def startsWithChars : List Char → List Char → Bool
  | [], _ => true
  | _ :: _, [] => false
  | c :: cs, h :: hs => c = h && startsWithChars cs hs

/-- Contiguous-substring test on character lists (Python `needle in haystack`
for strings). -/
def strContainsChars (needle : List Char) : List Char → Bool
  | [] => needle.isEmpty
  | h :: hs => startsWithChars needle (h :: hs) || strContainsChars needle hs

/-- Python `x == key` where `key` is a string: only a string with the same
characters compares equal; no other built-in value equals a string. -/
def pyStrEq (key : String) (x : PyVal) : Bool :=
  match x with
  | .str t => t = key
  | _ => false

/-- Python `key in v` for a string key: dict key membership, substring test
on strings, element membership on lists and tuples, TypeError otherwise. -/
def pyContains (v : PyVal) (key : String) : Except String Bool :=
  match v with
  | .dict es => .ok (dictContains es key)
  | .str s => .ok (strContainsChars key.toList s.toList)
  | .list xs => .ok (xs.any (pyStrEq key))
  | .tuple xs => .ok (xs.any (pyStrEq key))
  | _ => .error "TypeError: argument is not a container"

/-- Python `v[key]` for a string key: dict lookup with KeyError on a missing
key, TypeError on every non-dict value (string and list subscripts require
integers). -/
def pySubscript (v : PyVal) (key : String) : Except String PyVal :=
  match v with
  | .dict es =>
    match dictLookup es key with
    | some w => .ok w
    | Option.none => .error "KeyError"
  | _ => .error "TypeError: value is not subscriptable with a string"

/-- The single-quote character, written by code point to keep source strings
plain. -/
def squoteChar : Char := Char.ofNat 39

/-- The double-quote character. -/
def dquoteChar : Char := Char.ofNat 34

/-- The backslash character. -/
def backslashChar : Char := Char.ofNat 92

/-- The opening curly-brace character. -/
def lcurlyChar : Char := Char.ofNat 123

/-- The closing curly-brace character. -/
def rcurlyChar : Char := Char.ofNat 125

/-- The newline character. -/
def nlChar : Char := Char.ofNat 10

/-- The tab character. -/
def tabChar : Char := Char.ofNat 9

/-- The carriage-return character. -/
def crChar : Char := Char.ofNat 13

/-- Escape one character the way Python repr escapes the contents of a
single-quoted string literal (backslash, quote, newline, tab, return). -/
def pyEscapeChar (c : Char) : String :=
  if c = backslashChar then String.singleton backslashChar ++ String.singleton backslashChar
  else if c = squoteChar then String.singleton backslashChar ++ String.singleton squoteChar
  else if c = nlChar then String.singleton backslashChar ++ "n"
  else if c = tabChar then String.singleton backslashChar ++ "t"
  else if c = crChar then String.singleton backslashChar ++ "r"
  else String.singleton c

/-- Escape a whole string for Python repr. -/
def pyEscape (s : String) : String :=
  String.join (s.toList.map pyEscapeChar)

mutual

/-- Python `repr` on the modelled value universe: `None`, `True`/`False`,
decimal integers, single-quoted strings, bracketed lists, parenthesised
tuples (with the trailing comma on singletons), braced dicts. -/
def pyRepr : PyVal → String
  | .none => "None"
  | .bool true => "True"
  | .bool false => "False"
  | .int n => toString n
  | .str s => String.singleton squoteChar ++ pyEscape s ++ String.singleton squoteChar
  | .list xs => "[" ++ pyReprList xs ++ "]"
  | .tuple [x] => "(" ++ pyRepr x ++ ",)"
  | .tuple xs => "(" ++ pyReprList xs ++ ")"
  | .dict es => String.singleton lcurlyChar ++ pyReprEntries es ++ String.singleton rcurlyChar

/-- Comma-and-space separated reprs of a list of elements. -/
def pyReprList : List PyVal → String
  | [] => ""
  | [x] => pyRepr x
  | x :: xs => pyRepr x ++ ", " ++ pyReprList xs

/-- Comma-and-space separated `key: value` reprs of dict entries. -/
def pyReprEntries : List (String × PyVal) → String
  | [] => ""
  | [(k, v)] =>
    String.singleton squoteChar ++ pyEscape k ++ String.singleton squoteChar ++ ": " ++ pyRepr v
  | (k, v) :: es =>
    String.singleton squoteChar ++ pyEscape k ++ String.singleton squoteChar ++ ": " ++ pyRepr v
      ++ ", " ++ pyReprEntries es

end

/-- Python `str`: identity on strings, repr on everything else (which agrees
with `str` on None, booleans and integers). -/
def pyStr (v : PyVal) : String :=
  match v with
  | .str s => s
  | w => pyRepr w

/-- Escape one character for a JSON string literal. -/
def jsonEscapeChar (c : Char) : String :=
  if c = backslashChar then String.singleton backslashChar ++ String.singleton backslashChar
  else if c = dquoteChar then String.singleton backslashChar ++ String.singleton dquoteChar
  else if c = nlChar then String.singleton backslashChar ++ "n"
  else if c = tabChar then String.singleton backslashChar ++ "t"
  else if c = crChar then String.singleton backslashChar ++ "r"
  else String.singleton c

/-- Escape a whole string for a JSON string literal. -/
def jsonEscape (s : String) : String :=
  String.join (s.toList.map jsonEscapeChar)

/-- A JSON string literal: the escaped text in double quotes. -/
def jsonStrLit (s : String) : String :=
  String.singleton dquoteChar ++ jsonEscape s ++ String.singleton dquoteChar

/-- Stable insertion of a serialised dict entry into a key-sorted list,
placed after entries with an equal or smaller key. -/
def insertByKey (kv : String × String) : List (String × String) → List (String × String)
  | [] => [kv]
  | hd :: tl => if kv.1 < hd.1 then kv :: hd :: tl else hd :: insertByKey kv tl

/-- Stable insertion sort of serialised dict entries by key, modelling the
`sort_keys` behaviour of the Flask JSON provider. -/
def sortByKey : List (String × String) → List (String × String)
  | [] => []
  | hd :: tl => insertByKey hd (sortByKey tl)

/-- Join serialised dict entries as `"key":value` separated by commas. -/
def joinJsonEntries : List (String × String) → String
  | [] => ""
  | [(k, v)] => jsonStrLit k ++ ":" ++ v
  | (k, v) :: es => jsonStrLit k ++ ":" ++ v ++ "," ++ joinJsonEntries es

/-- Join serialised array items separated by commas. -/
def joinJsonItems : List String → String
  | [] => ""
  | [x] => x
  | x :: xs => x ++ "," ++ joinJsonItems xs

mutual

/-- Modelled from the spec: the canonical structured-text (JSON) encoding a
JSON serializer would produce, as delegated to the HTTP binding's helper
(Flask `json.dumps` with sorted keys and compact separators): `null`,
`true`/`false`, decimal integers, quoted strings, arrays for lists and
tuples, objects for dicts. -/
def jsonDumps : PyVal → String
  | .none => "null"
  | .bool true => "true"
  | .bool false => "false"
  | .int n => toString n
  | .str s => jsonStrLit s
  | .list xs => "[" ++ joinJsonItems (jsonDumpsList xs) ++ "]"
  | .tuple xs => "[" ++ joinJsonItems (jsonDumpsList xs) ++ "]"
  | .dict es =>
    String.singleton lcurlyChar ++ joinJsonEntries (sortByKey (jsonDumpsEntries es))
      ++ String.singleton rcurlyChar

/-- Serialise each array item. -/
def jsonDumpsList : List PyVal → List String
  | [] => []
  | x :: xs => jsonDumps x :: jsonDumpsList xs

/-- Serialise each dict entry's value, keeping the key for sorting. -/
def jsonDumpsEntries : List (String × PyVal) → List (String × String)
  | [] => []
  | (k, v) :: es => (k, jsonDumps v) :: jsonDumpsEntries es

end

/-- Modelled from the spec: Flask `jsonify`, the HTTP binding's serialization
helper the formatter delegates structured bodies to.  Its response payload is
the JSON encoding of the value followed by a newline. -/
def jsonify (v : PyVal) : String :=
  jsonDumps v ++ String.singleton nlChar

/-- The body slot of the value `format_response` hands to Flask: either a
plain Python string or the JSON response produced by `jsonify`, identified
by its payload. -/
inductive BodyVal : Type
  | text (s : String)
  | json (data : String)

/-- The value returned by `format_response`: the source returns the pair
`(body, status)` for an absent result and the triple
`(body, status, headers)` otherwise. -/
inductive FlaskResult : Type
  | pair (body : BodyVal) (status : PyVal)
  | triple (body : BodyVal) (status : PyVal) (headers : PyVal)

/-- Embedding of `format_status_code`: return `resp[statusCode]` verbatim
when the key is present, else the integer 200.  The membership test raises
TypeError on non-container values. -/
def format_status_code (resp : PyVal) : Except String PyVal :=
  match pyContains resp "statusCode" with
  | .error e => .error e
  | .ok true => pySubscript resp "statusCode"
  | .ok false => .ok (.int 200)

/-- Embedding of `format_body`: empty string without a body entry, `jsonify`
for a body whose exact type is dict, Python `str` otherwise. -/
def format_body (resp : PyVal) : Except String BodyVal :=
  match pyContains resp "body" with
  | .error e => .error e
  | .ok false => .ok (.text "")
  | .ok true =>
    match pySubscript resp "body" with
    | .error e => .error e
    | .ok (.dict b) => .ok (.json (jsonify (.dict b)))
    | .ok v => .ok (.text (pyStr v))

/-- Embedding of the loop in `format_headers`: for each key of the headers
dict, in order, append the tuple `(key, headers[key])`. -/
def headersLoop (hdict : List (String × PyVal)) : List String → Except String (List PyVal)
  | [] => .ok []
  | k :: rest =>
    match pySubscript (.dict hdict) k with
    | .error e => .error e
    | .ok v =>
      match headersLoop hdict rest with
      | .error e => .error e
      | .ok tl => .ok (PyVal.tuple [.str k, v] :: tl)

/-- Embedding of `format_headers`: empty list without a headers entry, the
key-iteration-order list of `(key, value)` tuples for a dict value, and the
value passed through unchanged otherwise. -/
def format_headers (resp : PyVal) : Except String PyVal :=
  match pyContains resp "headers" with
  | .error e => .error e
  | .ok false => .ok (.list [])
  | .ok true =>
    match pySubscript resp "headers" with
    | .error e => .error e
    | .ok (.dict hs) =>
      match headersLoop hs (hs.map Prod.fst) with
      | .error e => .error e
      | .ok pairs => .ok (.list pairs)
    | .ok v => .ok v

/-- Embedding of `format_response`: the pair `(empty string, 200)` when the
handler returned no value, otherwise the triple assembled from the three
helpers, evaluated in source order. -/
def format_response (resp : PyVal) : Except String FlaskResult :=
  match resp with
  | .none => .ok (.pair (.text "") (.int 200))
  | _ =>
    match format_status_code resp with
    | .error e => .error e
    | .ok statusCode =>
      match format_body resp with
      | .error e => .error e
      | .ok body =>
        match format_headers resp with
        | .error e => .error e
        | .ok headers => .ok (.triple body statusCode headers)

/-- Embedding of `os.getenv(name, default)`: the variable's value when the
name is bound in the environment (even when bound to the empty string), the
default only when it is unbound. -/
def os_getenv (env : String → Option String) (name default : String) : String :=
  match env name with
  | some v => v
  | Option.none => default

/-- Skip JSON whitespace characters. -/
def skipWs : List Char → List Char
  | [] => []
  | c :: rest =>
    if c = ' ' || c = nlChar || c = tabChar || c = crChar then skipWs rest
    else c :: rest

/-- Parse the body of a JSON string literal after the opening quote,
returning the text and the input after the closing quote. -/
def jsonParseStr : List Char → Option (String × List Char)
  | [] => Option.none
  | c :: rest =>
    if c = dquoteChar then some ("", rest)
    else if c = backslashChar then
      match rest with
      | [] => Option.none
      | e :: rest2 =>
        let uc :=
          if e = dquoteChar then some dquoteChar
          else if e = backslashChar then some backslashChar
          else if e = 'n' then some nlChar
          else if e = 't' then some tabChar
          else if e = 'r' then some crChar
          else Option.none
        match uc with
        | Option.none => Option.none
        | some u =>
          match jsonParseStr rest2 with
          | Option.none => Option.none
          | some (s, rem) => some (String.singleton u ++ s, rem)
    else
      match jsonParseStr rest with
      | Option.none => Option.none
      | some (s, rem) => some (String.singleton c ++ s, rem)

/-- Accumulate decimal digits into a natural number; fails on zero digits. -/
def jsonParseDigits (acc : Nat) (seen : Bool) : List Char → Option (Nat × List Char)
  | [] => if seen then some (acc, []) else Option.none
  | c :: rest =>
    if c.isDigit then jsonParseDigits (acc * 10 + (c.toNat - 48)) true rest
    else if seen then some (acc, c :: rest)
    else Option.none

/-- Parse a JSON integer, with an optional leading minus sign. -/
def jsonParseInt : List Char → Option (Int × List Char)
  | [] => Option.none
  | c :: rest =>
    if c = '-' then
      match jsonParseDigits 0 false rest with
      | Option.none => Option.none
      | some (n, rem) => some (-(n : Int), rem)
    else
      match jsonParseDigits 0 false (c :: rest) with
      | Option.none => Option.none
      | some (n, rem) => some ((n : Int), rem)

mutual

/-- Modelled from the spec: a recursive-descent parser for the canonical
structured-text encoding, used to state the round-trip property the spec
asserts for structured bodies ("parsing it back").  The fuel argument bounds
nesting depth; the top-level wrapper supplies more fuel than any input of
its length can consume. -/
def jsonParseVal : Nat → List Char → Option (PyVal × List Char)
  | 0, _ => Option.none
  | fuel + 1, cs0 =>
    match skipWs cs0 with
    | [] => Option.none
    | c :: cs =>
      if c = lcurlyChar then
        match skipWs cs with
        | d :: cs2 =>
          if d = rcurlyChar then some (.dict [], cs2)
          else jsonParseMembers fuel (d :: cs2)
        | [] => Option.none
      else if c = '[' then
        match skipWs cs with
        | d :: cs2 =>
          if d = ']' then some (.list [], cs2)
          else jsonParseItems fuel (d :: cs2)
        | [] => Option.none
      else if c = dquoteChar then
        match jsonParseStr cs with
        | Option.none => Option.none
        | some (s, rem) => some (.str s, rem)
      else
        match c :: cs with
        | 'n' :: 'u' :: 'l' :: 'l' :: rem => some (.none, rem)
        | 't' :: 'r' :: 'u' :: 'e' :: rem => some (.bool true, rem)
        | 'f' :: 'a' :: 'l' :: 's' :: 'e' :: rem => some (.bool false, rem)
        | cs2 =>
          match jsonParseInt cs2 with
          | Option.none => Option.none
          | some (n, rem) => some (.int n, rem)

/-- Parse one or more comma-separated array items, then the closing bracket. -/
def jsonParseItems : Nat → List Char → Option (PyVal × List Char)
  | 0, _ => Option.none
  | fuel + 1, cs =>
    match jsonParseVal fuel cs with
    | Option.none => Option.none
    | some (v, rem) =>
      match skipWs rem with
      | c :: rem2 =>
        if c = ',' then
          match jsonParseItems fuel rem2 with
          | some (.list vs, rem3) => some (.list (v :: vs), rem3)
          | _ => Option.none
        else if c = ']' then some (.list [v], rem2)
        else Option.none
      | [] => Option.none

/-- Parse one or more comma-separated object members, then the closing brace. -/
def jsonParseMembers : Nat → List Char → Option (PyVal × List Char)
  | 0, _ => Option.none
  | fuel + 1, cs =>
    match skipWs cs with
    | c :: cs2 =>
      if c = dquoteChar then
        match jsonParseStr cs2 with
        | Option.none => Option.none
        | some (k, rem) =>
          match skipWs rem with
          | d :: rem2 =>
            if d = ':' then
              match jsonParseVal fuel rem2 with
              | Option.none => Option.none
              | some (v, rem3) =>
                match skipWs rem3 with
                | e :: rem4 =>
                  if e = ',' then
                    match jsonParseMembers fuel rem4 with
                    | some (.dict es, rem5) => some (.dict ((k, v) :: es), rem5)
                    | _ => Option.none
                  else if e = rcurlyChar then some (.dict [(k, v)], rem4)
                  else Option.none
                | [] => Option.none
            else Option.none
          | [] => Option.none
      else Option.none
    | [] => Option.none

end

/-- Modelled from the spec: parse a complete JSON document, tolerating
trailing whitespace (as `json.loads` does). -/
def jsonParse (s : String) : Option PyVal :=
  match jsonParseVal (s.length + 1) s.toList with
  | some (v, rest) => if (skipWs rest).isEmpty then some v else Option.none
  | Option.none => Option.none

/-- The per-request context handed to the handler. -/
structure Context : Type where
  hostname : String

/-- Embedding of `Context.__init__`: read the HOSTNAME environment variable
with default localhost. -/
def Context.init (env : String → Option String) : Context :=
  { hostname := os_getenv env "HOSTNAME" "localhost" }

/-- Whether a value is a two-element tuple, the shape of one header pair. -/
def isPair : PyVal → Bool
  | .tuple [_, _] => true
  | _ => false

/-- Whether a value is a sequence (list or tuple) of header pairs. -/
def isPairSeq : PyVal → Bool
  | .list xs => xs.all isPair
  | .tuple xs => xs.all isPair
  | _ => false

/-- Whether a value is a dict. -/
def isDictVal : PyVal → Bool
  | .dict _ => true
  | _ => false

/-- A headers entry, when present, is either a mapping or a sequence of
pairs: the shape assumption of the spec's failure-semantics clause. -/
def WellShapedHeaders (es : List (String × PyVal)) : Prop :=
  match dictLookup es "headers" with
  | Option.none => True
  | some v => (∃ hs, v = PyVal.dict hs) ∨ isPairSeq v = true

/-- A handler result is well shaped when it is absent or a mapping whose
headers entry, if any, is a mapping or a pair sequence.  Every value of the
modelled universe is stringifiable and JSON-serializable, so the body needs
no further side condition. -/
def WellShapedResult (resp : PyVal) : Prop :=
  resp = PyVal.none ∨ ∃ es, resp = PyVal.dict es ∧ WellShapedHeaders es

/-! Helper lemmas shared by the claim theorems. -/

/-- Key membership agrees with lookup success. -/
theorem dictContains_eq_isSome (es : List (String × PyVal)) (key : String) :
    dictContains es key = (dictLookup es key).isSome := by
  induction es with
  | nil => rfl
  | cons hd tl ih =>
    obtain ⟨k, v⟩ := hd
    simp only [dictContains, dictLookup]
    by_cases h : k = key
    · simp [h]
    · simp [h, ih]

/-- In a dict with no duplicate keys, every entry is found by looking up its
own key. -/
theorem dictLookup_self :
    ∀ hs : List (String × PyVal), (hs.map Prod.fst).Nodup →
      ∀ kv ∈ hs, dictLookup hs kv.1 = some kv.2 := by
  intro hs
  induction hs with
  | nil => intro _ kv h; exact absurd h (List.not_mem_nil kv)
  | cons hd tl ih =>
    intro hnd kv hkv
    obtain ⟨k0, v0⟩ := hd
    simp only [List.map_cons, List.nodup_cons] at hnd
    rcases List.mem_cons.mp hkv with h | h
    · subst h
      simp [dictLookup]
    · have h1 : kv.1 ∈ tl.map Prod.fst := List.mem_map_of_mem Prod.fst h
      have hne : ¬ k0 = kv.1 := fun he => hnd.1 (he ▸ h1)
      simp only [dictLookup, if_neg hne]
      exact ih hnd.2 kv h

/-- Looking up any key drawn from the key list succeeds. -/
theorem dictLookup_isSome_of_mem :
    ∀ hs : List (String × PyVal), ∀ k ∈ hs.map Prod.fst,
      (dictLookup hs k).isSome := by
  intro hs
  induction hs with
  | nil => intro k h; exact absurd h (List.not_mem_nil k)
  | cons hd tl ih =>
    intro k hk
    obtain ⟨k0, v0⟩ := hd
    simp only [dictLookup]
    by_cases h : k0 = k
    · simp [h]
    · simp only [if_neg h]
      apply ih
      simp only [List.map_cons, List.mem_cons] at hk
      rcases hk with hk | hk
      · exact absurd hk.symm h
      · exact hk

/-- The header loop over the keys of an entry list whose entries all look
themselves up reproduces the entries as tuples. -/
theorem headersLoop_eq (big : List (String × PyVal)) :
    ∀ rest : List (String × PyVal),
      (∀ kv ∈ rest, dictLookup big kv.1 = some kv.2) →
      headersLoop big (rest.map Prod.fst) =
        Except.ok (rest.map (fun kv => PyVal.tuple [PyVal.str kv.1, kv.2])) := by
  intro rest
  induction rest with
  | nil => intro _; rfl
  | cons kv rest ih =>
    intro h
    have h1 := h kv (List.mem_cons_self kv rest)
    have h2 : ∀ x ∈ rest, dictLookup big x.1 = some x.2 :=
      fun x hx => h x (List.mem_cons_of_mem kv hx)
    simp [headersLoop, pySubscript, h1, ih h2]

/-- The header loop succeeds whenever every key it visits is present. -/
theorem headersLoop_isOk (big : List (String × PyVal)) :
    ∀ ks : List String, (∀ k ∈ ks, (dictLookup big k).isSome) →
      ∃ out, headersLoop big ks = Except.ok out := by
  intro ks
  induction ks with
  | nil => intro _; exact ⟨[], rfl⟩
  | cons k ks ih =>
    intro h
    have h1 := h k (List.mem_cons_self k ks)
    obtain ⟨v, hv⟩ := Option.isSome_iff_exists.mp h1
    obtain ⟨out, hout⟩ := ih (fun x hx => h x (List.mem_cons_of_mem k hx))
    refine ⟨PyVal.tuple [PyVal.str k, v] :: out, ?_⟩
    simp [headersLoop, pySubscript, hv, hout]

/-- On any dict, `format_status_code` returns the `statusCode` entry or the
default 200. -/
theorem format_status_code_dict (es : List (String × PyVal)) :
    format_status_code (PyVal.dict es) =
      Except.ok ((dictLookup es "statusCode").getD (PyVal.int 200)) := by
  have hc : pyContains (PyVal.dict es) "statusCode"
      = Except.ok (dictContains es "statusCode") := rfl
  have hsub : pySubscript (PyVal.dict es) "statusCode"
      = (match dictLookup es "statusCode" with
         | some w => Except.ok w
         | Option.none => Except.error "KeyError") := rfl
  unfold format_status_code
  rw [hc, dictContains_eq_isSome, hsub]
  cases h : dictLookup es "statusCode" <;> simp

/-- On any dict, `format_body` returns the empty text, the JSON response, or
the stringified body, by the shape of the `body` entry. -/
theorem format_body_dict (es : List (String × PyVal)) :
    format_body (PyVal.dict es) = Except.ok (
      match dictLookup es "body" with
      | Option.none => BodyVal.text ""
      | some (PyVal.dict b) => BodyVal.json (jsonify (PyVal.dict b))
      | some v => BodyVal.text (pyStr v)) := by
  have hc : pyContains (PyVal.dict es) "body"
      = Except.ok (dictContains es "body") := rfl
  have hsub : pySubscript (PyVal.dict es) "body"
      = (match dictLookup es "body" with
         | some w => Except.ok w
         | Option.none => Except.error "KeyError") := rfl
  unfold format_body
  rw [hc, dictContains_eq_isSome, hsub]
  cases h : dictLookup es "body" with
  | none => simp
  | some v => cases v <;> simp

/-- On a dict without a `headers` entry, `format_headers` returns the empty
list. -/
theorem format_headers_dict_none (es : List (String × PyVal))
    (h : dictLookup es "headers" = Option.none) :
    format_headers (PyVal.dict es) = Except.ok (PyVal.list []) := by
  have hc : pyContains (PyVal.dict es) "headers"
      = Except.ok (dictContains es "headers") := rfl
  unfold format_headers
  rw [hc, dictContains_eq_isSome, h]
  rfl

/-- On a dict whose `headers` entry is itself a dict, `format_headers` wraps
the result of the key loop. -/
theorem format_headers_dict_dict (es hs : List (String × PyVal))
    (h : dictLookup es "headers" = some (PyVal.dict hs)) :
    format_headers (PyVal.dict es) =
      match headersLoop hs (hs.map Prod.fst) with
      | Except.error e => Except.error e
      | Except.ok pairs => Except.ok (PyVal.list pairs) := by
  have hc : pyContains (PyVal.dict es) "headers"
      = Except.ok (dictContains es "headers") := rfl
  have hsub : pySubscript (PyVal.dict es) "headers"
      = (match dictLookup es "headers" with
         | some w => Except.ok w
         | Option.none => Except.error "KeyError") := rfl
  unfold format_headers
  rw [hc, dictContains_eq_isSome, hsub, h]
  simp

/-- On a dict whose `headers` entry is present but not a dict,
`format_headers` passes the value through unchanged. -/
theorem format_headers_dict_other (es : List (String × PyVal)) (v : PyVal)
    (h : dictLookup es "headers" = some v) (hv : isDictVal v = false) :
    format_headers (PyVal.dict es) = Except.ok v := by
  have hc : pyContains (PyVal.dict es) "headers"
      = Except.ok (dictContains es "headers") := rfl
  have hsub : pySubscript (PyVal.dict es) "headers"
      = (match dictLookup es "headers" with
         | some w => Except.ok w
         | Option.none => Except.error "KeyError") := rfl
  unfold format_headers
  rw [hc, dictContains_eq_isSome, hsub, h]
  cases v <;> simp_all [isDictVal]

/-! Claim theorems. -/

/-- C1 (counterexample): on an absent handler result the source returns the
pair `("", 200)`, not a triple carrying an explicit empty headers list, so
the claimed output shape is refuted at the concrete input `None`. -/
theorem format_response_none_not_triple :
    format_response PyVal.none ≠
      Except.ok (FlaskResult.triple (BodyVal.text "") (PyVal.int 200) (PyVal.list [])) := by
  intro h
  have h2 := Except.ok.inj h
  exact FlaskResult.noConfusion h2

/-- C1 (amended): for every request, when the handler returns no value,
`format_response` returns exactly the pair (body `""`, status `200`) — an
empty success response with no headers component — checked before and
short-circuiting all other formatting rules. -/
theorem format_response_none_pair :
    format_response PyVal.none =
      Except.ok (FlaskResult.pair (BodyVal.text "") (PyVal.int 200)) := rfl

/-- C2: for every mapping-shaped handler result, the formatted status code
equals the `statusCode` entry verbatim whenever the key is present (no type
or range validation), and equals 200 whenever the key is absent. -/
theorem format_status_code_spec (es : List (String × PyVal)) (v : PyVal) :
    (dictLookup es "statusCode" = some v →
      format_status_code (PyVal.dict es) = Except.ok v) ∧
    (dictLookup es "statusCode" = Option.none →
      format_status_code (PyVal.dict es) = Except.ok (PyVal.int 200)) := by
  constructor
  · intro h
    rw [format_status_code_dict, h]
    rfl
  · intro h
    rw [format_status_code_dict, h]
    rfl

/-- C2 (witness): a present but falsy status code 0 is passed through
verbatim. -/
theorem format_status_code_spec_witness :
    format_status_code (PyVal.dict [("statusCode", PyVal.int 0)]) =
      Except.ok (PyVal.int 0) :=
  (format_status_code_spec [("statusCode", PyVal.int 0)] (PyVal.int 0)).1 rfl

/-- C3: for every mapping-shaped handler result, the formatted body is the
empty string when no `body` entry exists, the JSON serialization when the
entry is a mapping, and the generic string representation otherwise. -/
theorem format_body_spec (es : List (String × PyVal)) :
    format_body (PyVal.dict es) = Except.ok (
      match dictLookup es "body" with
      | Option.none => BodyVal.text ""
      | some (PyVal.dict b) => BodyVal.json (jsonify (PyVal.dict b))
      | some v => BodyVal.text (pyStr v)) :=
  format_body_dict es

/-- C4: for every mapping-shaped handler result whose `headers` entry is a
mapping with no duplicate keys, the formatted headers are the `(name, value)`
pairs, one per mapping entry, in the mapping's key iteration order; when the
result has no `headers` entry, the formatted headers are the empty list. -/
theorem format_headers_mapping_spec (es hs : List (String × PyVal)) :
    (dictLookup es "headers" = some (PyVal.dict hs) → (hs.map Prod.fst).Nodup →
      format_headers (PyVal.dict es) =
        Except.ok (PyVal.list
          (hs.map (fun kv => PyVal.tuple [PyVal.str kv.1, kv.2])))) ∧
    (dictLookup es "headers" = Option.none →
      format_headers (PyVal.dict es) = Except.ok (PyVal.list [])) := by
  constructor
  · intro h hnd
    rw [format_headers_dict_dict es hs h,
      headersLoop_eq hs hs (dictLookup_self hs hnd)]
  · intro h
    exact format_headers_dict_none es h

/-- C4 (witness): the spec's example mapping with entries X-A and X-B is
turned into exactly those two pairs in iteration order. -/
theorem format_headers_mapping_spec_witness :
    format_headers (PyVal.dict
        [("headers", PyVal.dict [("X-A", PyVal.str "1"), ("X-B", PyVal.str "2")])]) =
      Except.ok (PyVal.list
        [PyVal.tuple [PyVal.str "X-A", PyVal.str "1"],
         PyVal.tuple [PyVal.str "X-B", PyVal.str "2"]]) :=
  (format_headers_mapping_spec
      [("headers", PyVal.dict [("X-A", PyVal.str "1"), ("X-B", PyVal.str "2")])]
      [("X-A", PyVal.str "1"), ("X-B", PyVal.str "2")]).1 rfl (by decide)

/-- C5: for every mapping-shaped handler result whose `headers` entry is
already a sequence of pairs, `format_headers` returns that value unchanged. -/
theorem format_headers_passthrough (es : List (String × PyVal)) (v : PyVal)
    (h : dictLookup es "headers" = some v) (hp : isPairSeq v = true) :
    format_headers (PyVal.dict es) = Except.ok v := by
  apply format_headers_dict_other es v h
  cases v <;> simp_all [isPairSeq, isDictVal]

/-- C5 (witness): a headers value already given as the pair list
`[(X-A, 1)]` is passed through unchanged. -/
theorem format_headers_passthrough_witness :
    format_headers (PyVal.dict
        [("headers", PyVal.list [PyVal.tuple [PyVal.str "X-A", PyVal.str "1"]])]) =
      Except.ok (PyVal.list [PyVal.tuple [PyVal.str "X-A", PyVal.str "1"]]) :=
  format_headers_passthrough
    [("headers", PyVal.list [PyVal.tuple [PyVal.str "X-A", PyVal.str "1"]])]
    (PyVal.list [PyVal.tuple [PyVal.str "X-A", PyVal.str "1"]]) rfl rfl

/-- C7: `format_response` is a pure function of its input: two invocations
on equal handler results yield identical formatted responses — no state
persists across invocations in the embedding. -/
theorem format_response_deterministic (r1 r2 : PyVal) (h : r1 = r2) :
    format_response r1 = format_response r2 := by
  rw [h]

/-- C7 (witness): two evaluations at the same concrete result agree. -/
theorem format_response_deterministic_witness :
    format_response (PyVal.dict [("statusCode", PyVal.int 201)]) =
      format_response (PyVal.dict [("statusCode", PyVal.int 201)]) :=
  format_response_deterministic
    (PyVal.dict [("statusCode", PyVal.int 201)])
    (PyVal.dict [("statusCode", PyVal.int 201)]) rfl

/-- C8: for every handler result that is absent or mapping-shaped with a
well-shaped headers entry, `format_response` succeeds: the error path of the
embedding (Python's TypeError/KeyError exceptions) is unreachable. -/
theorem format_response_total (resp : PyVal) (h : WellShapedResult resp) :
    ∃ r, format_response resp = Except.ok r := by
  rcases h with h | ⟨es, rfl, hws⟩
  · subst h
    exact ⟨_, rfl⟩
  · have hok : ∃ hv, format_headers (PyVal.dict es) = Except.ok hv := by
      unfold WellShapedHeaders at hws
      cases hlk : dictLookup es "headers" with
      | none => exact ⟨_, format_headers_dict_none es hlk⟩
      | some v =>
        rw [hlk] at hws
        rcases hws with ⟨hs, rfl⟩ | hps
        · obtain ⟨out, hout⟩ := headersLoop_isOk hs (hs.map Prod.fst)
            (fun k hk => dictLookup_isSome_of_mem hs k hk)
          refine ⟨PyVal.list out, ?_⟩
          rw [format_headers_dict_dict es hs hlk, hout]
        · refine ⟨v, format_headers_dict_other es v hlk ?_⟩
          cases v <;> simp_all [isPairSeq, isDictVal]
    obtain ⟨hv, hhv⟩ := hok
    refine ⟨FlaskResult.triple
      (match dictLookup es "body" with
       | Option.none => BodyVal.text ""
       | some (PyVal.dict b) => BodyVal.json (jsonify (PyVal.dict b))
       | some v => BodyVal.text (pyStr v))
      ((dictLookup es "statusCode").getD (PyVal.int 200)) hv, ?_⟩
    unfold format_response
    rw [format_status_code_dict, format_body_dict, hhv]

/-- C8 (witness): the spec's end-to-end example result is well shaped and
formats without error. -/
theorem format_response_total_witness :
    ∃ r, format_response (PyVal.dict
      [("statusCode", PyVal.int 201),
       ("body", PyVal.dict [("ok", PyVal.bool true)]),
       ("headers", PyVal.dict [("X-Test", PyVal.str "yes")])]) = Except.ok r :=
  format_response_total
    (PyVal.dict
      [("statusCode", PyVal.int 201),
       ("body", PyVal.dict [("ok", PyVal.bool true)]),
       ("headers", PyVal.dict [("X-Test", PyVal.str "yes")])])
    (Or.inr ⟨_, rfl, Or.inl ⟨[("X-Test", PyVal.str "yes")], rfl⟩⟩)

/-- C9: for a handler result whose body entry is the structured mapping with
the single entry a maps-to 1, the formatted body is that mapping's canonical
JSON serialization, and parsing the serialization back recovers the mapping. -/
theorem format_body_json_roundtrip :
    format_body (PyVal.dict [("body", PyVal.dict [("a", PyVal.int 1)])]) =
      Except.ok (BodyVal.json (jsonify (PyVal.dict [("a", PyVal.int 1)]))) ∧
    jsonParse (jsonify (PyVal.dict [("a", PyVal.int 1)])) =
      some (PyVal.dict [("a", PyVal.int 1)]) :=
  ⟨rfl, rfl⟩

/-- An environment binding HOSTNAME to the empty string. -/
def envWithEmptyHostname : String → Option String :=
  fun name => if name = "HOSTNAME" then some "" else Option.none

/-- An environment binding HOSTNAME to the value myhost. -/
def envWithHostname : String → Option String :=
  fun name => if name = "HOSTNAME" then some "myhost" else Option.none

/-- C6 (counterexample): when the instance-identity variable is set to the
empty string, the context hostname is the empty string, not the claimed
default localhost. -/
theorem context_hostname_empty_cex :
    (Context.init envWithEmptyHostname).hostname = "" ∧
    ¬ (Context.init envWithEmptyHostname).hostname = "localhost" := by
  constructor
  · rfl
  · decide

/-- C6 (amended): the context hostname equals the instance-identity
variable's value whenever the variable is set — even when set to the empty
string — and equals the fixed default localhost exactly when it is unset;
context construction is a total function and always succeeds. -/
theorem context_hostname_spec (env : String → Option String) (v : String) :
    (env "HOSTNAME" = some v → (Context.init env).hostname = v) ∧
    (env "HOSTNAME" = Option.none → (Context.init env).hostname = "localhost") := by
  constructor <;> intro h <;> simp [Context.init, os_getenv, h]

/-- C6 (witness): a set variable is read back verbatim. -/
theorem context_hostname_spec_witness :
    (Context.init envWithHostname).hostname = "myhost" :=
  (context_hostname_spec envWithHostname "myhost").1 rfl
